import Mathlib

/-!
Shallow embedding of the speech-translator content-script controller
(`src/content_script.ts`, class `SpeechTranslatorController`) together with
the response-parsing logic of `translateText` and the overlay render
protocol of `displayBothLanguages`.  Browser-side effects (messages sent
over the extension channel, scheduled timers, engine stop calls) are made
explicit as an `Effect` list returned next to the new controller state;
the DOM overlay is modelled as the list of blocks inside the `.st-list`
container, each block carrying its `st-live` class flag and the two
escaped text fragments written into its `innerHTML`.
-/

namespace AutoSub

/-- Mirrors `RecognitionConfig` of `types.ts`: input and output language. -/
structure RecognitionConfig where
  inputLang : String
  outputLang : String
  deriving Repr, DecidableEq

/-- One rendered block inside the overlay list (`.st-list` child).
`isLive` models membership of the `st-live` class; `transHtml` and
`origHtml` are the two dynamic fragments written into the block's
`innerHTML` (already HTML-escaped by `escapeHtml`). -/
structure Block where
  isLive : Bool
  transHtml : String
  origHtml : String
  deriving Repr, DecidableEq

/-- The overlay panel: whether the fixed `.st-container` markup has been
installed, and the ordered list of blocks in the `.st-list` element
(document order, first child first). -/
structure Overlay where
  hasContainer : Bool
  blocks : List Block
  deriving Repr, DecidableEq

/-- The mutable fields of `SpeechTranslatorController`.  `recognition`
records whether the engine handle is non-null; `clearTimer` a pending
timer id; `lastLineKey` the dedup key of the last committed pair. -/
structure CtrlState where
  recognition : Bool
  config : Option RecognitionConfig
  overlay : Option Overlay
  isActive : Bool
  isDragging : Bool
  dragOffsetX : Int
  dragOffsetY : Int
  clearTimer : Option Nat
  lastLineKey : Option String
  deriving Repr, DecidableEq

/-- Observable side effects of the controller handlers: messages sent over
`chrome.runtime`, `chrome.storage` writes, the scheduled auto-restart
timeout, the engine `stop()` call, and the outgoing translation request. -/
inductive Effect where
  | sendError (msg : String)
  | scheduleRestart (delayMs : Nat)
  | recognitionStop
  | storageSetIsActive (b : Bool)
  | statusUpdate (isActive : Bool) (status : String)
  | translateRequest (text sourceLang targetLang : String)
  deriving Repr, DecidableEq

/-- Concatenation of a list of strings, as JS `array.join('')`. -/
def concatAll : List String → String
  | [] => ""
  | x :: rest => x ++ concatAll rest

/-- Embeds `escapeHtml` (content_script.ts:679-683): the code assigns the
string to a detached div's `textContent` and reads back `innerHTML`.  Per
the HTML fragment-serialization algorithm a text node is serialized by
replacing `&` with `&amp;`, U+00A0 (no-break space) with `&nbsp;`, `<`
with `&lt;` and `>` with `&gt;`. -/
def escapeHtml (s : String) : String :=
  concatAll (s.toList.map (fun c =>
    if c = '&' then "&amp;"
    else if c = Char.ofNat 160 then "&nbsp;"
    else if c = '<' then "&lt;"
    else if c = '>' then "&gt;"
    else String.singleton c))

/-- The escaping described by the claim text, for comparison with
`escapeHtml`: every `&` replaced by `&amp;`, every `<` by `&lt;` and
every `>` by `&gt;`, all other characters kept verbatim. -/
def specEscapeHtml (s : String) : String :=
  concatAll (s.toList.map (fun c =>
    if c = '&' then "&amp;"
    else if c = '<' then "&lt;"
    else if c = '>' then "&gt;"
    else String.singleton c))

/-- The dedup key built in `displayBothLanguages` (content_script.ts:442):
the translated and original texts joined by the literal separator. -/
def dedupKey (translatedText originalText : String) : String :=
  translatedText ++ "|||" ++ originalText

/-- Update the first block carrying the `st-live` class (the element
`querySelector` returns) with fresh escaped content; all other blocks are
untouched (content_script.ts:431-438). -/
def updateFirstLive : List Block → String → String → List Block
  | [], _, _ => []
  | b :: rest, t, o =>
    if b.isLive then { b with transHtml := t, origHtml := o } :: rest
    else b :: updateFirstLive rest t o

/-- Clone the first live block into a history block (the `st-live` class
removed) and insert the clone immediately after it, as
`list.insertBefore(historyBlock, liveBlock.nextSibling)` does
(content_script.ts:446-457). -/
def commitHistory : List Block → List Block
  | [] => []
  | b :: rest =>
    if b.isLive then b :: { b with isLive := false } :: rest
    else b :: commitHistory rest

/-- Number of blocks carrying the `st-live` class. -/
def liveCount (bs : List Block) : Nat :=
  (bs.filter (fun b => b.isLive)).length

/-- The history entries of the list: every block without the `st-live`
class, in document order. -/
def historyOf (bs : List Block) : List Block :=
  bs.filter (fun b => !b.isLive)

/-- Well-formed block list as produced by the renderer: either empty, or a
single live block at the head followed by history blocks only. -/
def wfBlocks : List Block → Bool
  | [] => true
  | b :: rest => b.isLive && rest.all (fun x => !x.isLive)

/-- Well-formed overlay: blocks only ever exist inside the installed
container, and the block list itself is well-formed. -/
def wfOverlay (ov : Overlay) : Bool :=
  (ov.hasContainer || ov.blocks.isEmpty) && wfBlocks ov.blocks

/-- The history entry committed for a finalized `(translated, original)`
pair: a non-live clone of the freshly updated live block. -/
def histEntry (translatedText originalText : String) : Block :=
  { isLive := false, transHtml := escapeHtml translatedText,
    origHtml := escapeHtml originalText }

/-- The block-list transformation performed by one display call: reuse
the existing live block or lazily create one at the head of the list
(`list.insertBefore(liveBlock, list.firstChild)`), rewrite its content,
and, when `doCommit` holds, insert the history clone after it. -/
def renderBlocks (bs : List Block) (t o : String) (doCommit : Bool) : List Block :=
  let bs1 : List Block :=
    if bs.any (fun b => b.isLive) then bs
    else { isLive := true, transHtml := "", origHtml := "" } :: bs
  let bs2 := updateFirstLive bs1 t o
  if doCommit then commitHistory bs2 else bs2

/-- Embeds `displayBothLanguages` (content_script.ts:361-463).  Clears the
pending timer, bails out when no overlay exists, installs the container
markup on first use (wiping the list), reuses or lazily creates the
single live block, rewrites its content from the escaped texts, and on a
final result whose dedup key differs from `lastLineKey` records the key
and inserts a history clone right after the live block. -/
def displayBothLanguages (s : CtrlState) (translatedText originalText : String)
    (isFinal : Bool) : CtrlState :=
  let s1 : CtrlState := { s with clearTimer := none }
  match s1.overlay with
  | none => s1
  | some ov0 =>
    let ov1 : Overlay :=
      if ov0.hasContainer then ov0 else { hasContainer := true, blocks := [] }
    let doCommit : Bool :=
      isFinal && !(s1.lastLineKey = some (dedupKey translatedText originalText) : Bool)
    { s1 with
      overlay := some { ov1 with
        blocks := renderBlocks ov1.blocks (escapeHtml translatedText)
          (escapeHtml originalText) doCommit },
      lastLineKey :=
        if doCommit then some (dedupKey translatedText originalText)
        else s1.lastLineKey }

/-- Embeds `cleanup` (content_script.ts:653-674): cancel the pending
timer, detach and drop the overlay, mark the session inactive, and clear
the config and the dedup key. -/
def cleanup (s : CtrlState) : CtrlState :=
  { s with clearTimer := none, overlay := none, isActive := false,
           config := none, lastLineKey := none }

/-- Embeds `stopRecognition` (content_script.ts:133-152): mark inactive,
stop and release the engine handle if present, run `cleanup`, persist
`isActive = false` and send a final status update. -/
def stopRecognition (s : CtrlState) : CtrlState × List Effect :=
  let s1 : CtrlState := { s with isActive := false }
  let stopEffs : List Effect := if s1.recognition then [Effect.recognitionStop] else []
  let s2 : CtrlState := { s1 with recognition := false }
  (cleanup s2,
   stopEffs ++ [Effect.storageSetIsActive false,
                Effect.statusUpdate false "Recognition Stopped"])

/-- Embeds `handleRecognitionEnd` (content_script.ts:262-268): when the
session is no longer active, run `cleanup`; otherwise do nothing. -/
def handleRecognitionEnd (s : CtrlState) : CtrlState × List Effect :=
  if !s.isActive then (cleanup s, []) else (s, [])

/-- The error message chosen by the `switch` in `handleRecognitionError`
(content_script.ts:226-241). -/
def errorMessageFor (err : String) : String :=
  match err with
  | "no-speech" => "No speech detected"
  | "audio-capture" => "Microphone not available"
  | "not-allowed" => "Microphone permission denied"
  | "network" => "Network error"
  | _ => "Error: " ++ err

/-- Embeds `handleRecognitionError` (content_script.ts:221-257): while the
session is active, `no-speech` and `aborted` schedule a 1000 ms delayed
restart of the engine; every other case sends the classified error
message upstream.  The controller state is not modified. -/
def handleRecognitionError (s : CtrlState) (err : String) : CtrlState × List Effect :=
  if s.isActive && (err == "no-speech" || err == "aborted") then
    (s, [Effect.scheduleRestart 1000])
  else
    (s, [Effect.sendError (errorMessageFor err)])

/-- Untyped JS values as they can appear in the translation-service
response (`GoogleTranslateResponse` of `types.ts` is a loose interface;
the parser in `translateText` probes the value dynamically). -/
inductive JSVal where
  | vstr (s : String)
  | vnum (n : Int)
  | vbool (b : Bool)
  | varr (elems : List JSVal)
  | vobj (fields : List (String × JSVal))
  | vnull
  | vundefined

/-- JS truthiness of a value, as used by `&&`, `||` and `if`. -/
def truthy : JSVal → Bool
  | .vstr s => !(s == "")
  | .vnum n => !(n == 0)
  | .vbool b => b
  | .vnull => false
  | .vundefined => false
  | .varr _ => true
  | .vobj _ => true

/-- JS `Array.isArray`. -/
def isArray : JSVal → Bool
  | .varr _ => true
  | _ => false

/-- JS `.length` of an array value (0 elsewhere; the parser only reads it
after an `Array.isArray` check). -/
def jsLength : JSVal → Nat
  | .varr xs => xs.length
  | _ => 0

/-- JS property access `v[key]`, throwing a `TypeError` on `null` and
`undefined` and yielding `undefined` for absent properties.  Only the
properties the parser reads are modelled: named fields of objects and
index `0` of arrays and strings. -/
def getProp : JSVal → String → Except String JSVal
  | .vnull, k => .error ("TypeError: cannot read " ++ k ++ " of null")
  | .vundefined, k => .error ("TypeError: cannot read " ++ k ++ " of undefined")
  | .vobj fields, k =>
    .ok (((fields.find? (fun p => p.1 == k)).map (fun p => p.2)).getD .vundefined)
  | .varr xs, k => .ok (if k == "0" then xs.headD .vundefined else .vundefined)
  | .vstr s, k =>
    .ok (if k == "0" then
           match s.toList with
           | [] => .vundefined
           | c :: _ => .vstr (String.singleton c)
         else .vundefined)
  | .vnum _, _ => .ok .vundefined
  | .vbool _, _ => .ok .vundefined

/-- JS `v || ''`: keep a truthy value, replace a falsy one by the empty
string. -/
def jsOrEmpty (v : JSVal) : JSVal :=
  if truthy v then v else .vstr ""

mutual

/-- JS `ToString` coercion, as applied by `Array.prototype.join` to the
array elements that are not `null`/`undefined`. -/
def jsToStr : JSVal → String
  | .vstr s => s
  | .vnum n => toString n
  | .vbool b => if b then "true" else "false"
  | .vnull => "null"
  | .vundefined => "undefined"
  | .vobj _ => "[object Object]"
  | .varr xs => jsToStrList xs

/-- JS `Array.prototype.join(",")` on the element list, with
`null`/`undefined` elements contributing the empty string. -/
def jsToStrList : List JSVal → String
  | [] => ""
  | [.vnull] => ""
  | [.vundefined] => ""
  | [v] => jsToStr v
  | .vnull :: rest => "," ++ jsToStrList rest
  | .vundefined :: rest => "," ++ jsToStrList rest
  | v :: rest => jsToStr v ++ "," ++ jsToStrList rest

end

/-- The string an element contributes to `join('')`: the empty string for
`null`/`undefined`, its `ToString` coercion otherwise. -/
def jsToStrElem : JSVal → String
  | .vnull => ""
  | .vundefined => ""
  | v => jsToStr v

/-- JS `xs.map(x => x[key] || '')`, with the `TypeError` of an access on a
`null`/`undefined` element propagated as in JS (the callback throws at
the first offending element). -/
def mapPropOrEmpty (key : String) : List JSVal → Except String (List JSVal)
  | [] => .ok []
  | x :: rest => do
    let v ← getProp x key
    let r ← mapPropOrEmpty key rest
    pure (jsOrEmpty v :: r)

/-- Embeds the response-parsing core of `translateText`
(content_script.ts:305-329): shape (a) an object whose `sentences` field
is an array — concatenate `sentence.trans || ''` over its entries; shape
(b) a root-level array whose first element is an array — concatenate
`item[0] || ''` over that element's entries, dropping falsy strings
before the join.  Anything else leaves the accumulator empty.  A thrown
`TypeError` surfaces as `.error` (it is caught further up in
`translateText`). -/
def extractTranslatedText (data : JSVal) : Except String String := do
  let sentences ← getProp data "sentences"
  if truthy sentences && isArray sentences then
    match sentences with
    | .varr xs => do
      let parts ← mapPropOrEmpty "trans" xs
      pure (concatAll (parts.map jsToStrElem))
    | _ => pure ""
  else if isArray data && jsLength data > 0 then do
    let first ← getProp data "0"
    if isArray first then
      match first with
      | .varr items => do
        let parts ← mapPropOrEmpty "0" items
        pure (concatAll ((parts.filter truthy).map jsToStrElem))
      | _ => pure ""
    else pure ""
  else pure ""

/-- Mirrors `TranslationResult` of `types.ts`. -/
structure TranslationResult where
  originalText : String
  translatedText : String
  sourceLang : String
  targetLang : String
  timestamp : Nat
  deriving Repr, DecidableEq

/-- Outcome of the `chrome.runtime.sendMessage` round trip inside
`translateText`: the channel returned no response (a falsy value), it
returned a `{success, data | error}` response object, or the call itself
threw with the given message. -/
inductive SendOutcome where
  | noResponse
  | resp (success : Bool) (error : Option String) (data : JSVal)
  | throwEx (msg : String)

/-- Whether the second character list is a prefix of the first. -/
def listStartsWith : List Char → List Char → Bool
  | _, [] => true
  | [], _ :: _ => false
  | c :: cs, p :: ps => c == p && listStartsWith cs ps

/-- Whether `p` occurs as a contiguous run inside the character list. -/
def containsAux (p : List Char) : List Char → Bool
  | [] => listStartsWith [] p
  | c :: rest => listStartsWith (c :: rest) p || containsAux p rest

/-- Whether `pat` occurs as a substring of `s` (JS `String.includes`). -/
def containsSubstr (s pat : String) : Bool :=
  containsAux pat.toList s.toList

/-- Embeds `translateText` (content_script.ts:273-356).  The messaging
round trip is supplied as a `SendOutcome` and `Date.now()` as `now`.  A
falsy response returns `null` with the state untouched; an unsuccessful
response re-throws and is caught by the surrounding catch; a thrown
message containing `Extension context invalidated` triggers
`stopRecognition`; a parsed but empty translation returns `null`; only a
non-empty parsed translation yields a `TranslationResult`. -/
def translateText (s : CtrlState) (text sourceLang targetLang : String)
    (outcome : SendOutcome) (now : Nat) :
    CtrlState × Option TranslationResult × List Effect :=
  let requestEff : Effect := .translateRequest text sourceLang targetLang
  let catchPath : String → CtrlState × Option TranslationResult × List Effect :=
    fun msg =>
      if containsSubstr msg "Extension context invalidated" then
        let r := stopRecognition s
        (r.1, none, requestEff :: r.2)
      else (s, none, [requestEff])
  match outcome with
  | .noResponse => (s, none, [requestEff])
  | .throwEx msg => catchPath msg
  | .resp success err data =>
    if !success then
      catchPath (match err with
                 | some e => if e == "" then "Translation failed" else e
                 | none => "Translation failed")
    else
      match extractTranslatedText data with
      | .error msg => catchPath msg
      | .ok t =>
        if t == "" then (s, none, [requestEff])
        else (s, some { originalText := text, translatedText := t,
                        sourceLang := sourceLang, targetLang := targetLang,
                        timestamp := now }, [requestEff])

/-- JS `String.prototype.trim`: strip leading and trailing whitespace
from both ends of the string. -/
def jsTrim (s : String) : String :=
  String.mk
    (((s.toList.dropWhile Char.isWhitespace).reverse.dropWhile
      Char.isWhitespace).reverse)

/-- One slot of a recognition result batch, reduced to its single
alternative: `result[0].transcript` and `result.isFinal`. -/
structure ResultSlot where
  transcript : String
  isFinal : Bool
  deriving Repr, DecidableEq

/-- The language code extraction `config.inputLang.split('-')[0]`. -/
def primarySubtag (lang : String) : String :=
  (lang.splitOn "-").headD ""

/-- Embeds `handleRecognitionResult` (content_script.ts:164-216): bail out
without config or while inactive, read only the last result slot, drop
short non-final fragments, otherwise run `translateText` (whose messaging
outcome is supplied) and display a successful translation. -/
def handleRecognitionResult (s : CtrlState) (results : List ResultSlot)
    (outcome : SendOutcome) (now : Nat) : CtrlState × List Effect :=
  match s.config with
  | none => (s, [])
  | some cfg =>
    if !s.isActive then (s, [])
    else
      match results.getLast? with
      | none => (s, [])
      | some slot =>
        if !slot.isFinal && (jsTrim slot.transcript).length < 5 then (s, [])
        else
          let r := translateText s slot.transcript (primarySubtag cfg.inputLang)
            cfg.outputLang outcome now
          match r.2.1 with
          | some translation =>
            (displayBothLanguages r.1 translation.translatedText slot.transcript
              slot.isFinal, r.2.2)
          | none => (r.1, r.2.2)

/-- The pointer-move environment of `handleDragMove`: pointer coordinates
and the viewport and panel dimensions read at that moment. -/
structure DragEnv where
  clientX : Int
  clientY : Int
  innerWidth : Int
  innerHeight : Int
  offsetWidth : Int
  offsetHeight : Int
  deriving Repr, DecidableEq

/-- Embeds `handleDragMove` (content_script.ts:565-586): bail out unless a
drag is in progress and the overlay exists; otherwise recompute the
position from the pointer minus the captured drag offset and clamp it to
the viewport, returning the `(left, top)` pair written to the style. -/
def handleDragMove (s : CtrlState) (env : DragEnv) : Option (Int × Int) :=
  if !s.isDragging || s.overlay.isNone then none
  else
    let newLeft := env.clientX - s.dragOffsetX
    let newTop := env.clientY - s.dragOffsetY
    let maxLeft := env.innerWidth - env.offsetWidth
    let maxTop := env.innerHeight - env.offsetHeight
    some (max 0 (min newLeft maxLeft), max 0 (min newTop maxTop))

/-- Folds a whole sequence of `display(translated, original, isFinal)`
calls over the controller state. -/
def displaySeq (s : CtrlState) (calls : List (String × String × Bool)) : CtrlState :=
  calls.foldl (fun st c => displayBothLanguages st c.1 c.2.1 c.2.2) s

/-- Whether the controller's overlay (when present) contains at most one
live block. -/
def overlayLiveOk (s : CtrlState) : Bool :=
  match s.overlay with
  | none => true
  | some ov => liveCount ov.blocks ≤ 1

/-- The history entries currently rendered in the controller's overlay
(empty when the overlay is absent). -/
def overlayHistory (s : CtrlState) : List Block :=
  match s.overlay with
  | none => []
  | some ov => historyOf ov.blocks

/-- Whether the controller's overlay is absent or well-formed. -/
def overlayWf (s : CtrlState) : Bool :=
  match s.overlay with
  | none => true
  | some ov => wfOverlay ov

/-- Whether the controller's overlay contains a live block carrying
exactly the given escaped fragments. -/
def overlayHasLiveContent (s : CtrlState) (t o : String) : Bool :=
  match s.overlay with
  | none => false
  | some ov => ov.blocks.any (fun b => b.isLive && b.transHtml == t && b.origHtml == o)

/-- Whether a drag-move result was applied and lies inside the viewport
rectangle `[0, innerWidth - offsetWidth] × [0, innerHeight - offsetHeight]`. -/
def inViewport (p : Option (Int × Int)) (env : DragEnv) : Bool :=
  match p with
  | none => false
  | some (l, t) =>
    (0 ≤ l && l ≤ env.innerWidth - env.offsetWidth) &&
    (0 ≤ t && t ≤ env.innerHeight - env.offsetHeight)

/-- Whether the parser extracts no text from a response value: it either
throws or leaves the accumulator empty. -/
def extractsNothing (data : JSVal) : Bool :=
  match extractTranslatedText data with
  | .ok t => t == ""
  | .error _ => true

/-- Shape (a) of the translation response: an object whose `sentences`
field is an array of objects each carrying a `trans` string. -/
def sentencesShape (ts : List String) : JSVal :=
  .vobj [("sentences", .varr (ts.map (fun t => JSVal.vobj [("trans", .vstr t)])))]

/-- Shape (b) of the translation response: a root-level array whose first
element is an array of `[translated, original]` tuples; `rest` models the
trailing elements of the root array. -/
def arrayShape (tuples : List (String × String)) (rest : List JSVal) : JSVal :=
  .varr (.varr (tuples.map (fun p => JSVal.varr [.vstr p.1, .vstr p.2])) :: rest)

/-- A concrete overlay used by witnesses and counterexamples. -/
def sampleOverlay : Overlay :=
  { hasContainer := true,
    blocks := [{ isLive := true, transHtml := "t0", origHtml := "o0" },
               { isLive := false, transHtml := "h1", origHtml := "h2" }] }

/-- A concrete active controller state used by witnesses and
counterexamples. -/
def sampleState : CtrlState :=
  { recognition := true,
    config := some { inputLang := "en-US", outputLang := "es" },
    overlay := some sampleOverlay, isActive := true, isDragging := false,
    dragOffsetX := 0, dragOffsetY := 0, clearTimer := some 3,
    lastLineKey := none }

/-- Concrete result batch whose last slot is a short interim fragment. -/
def shortResults : List ResultSlot :=
  [{ transcript := "Hello there", isFinal := true },
   { transcript := "hi", isFinal := false }]

/-- A concrete dragging state for the C8 witness. -/
def dragState : CtrlState :=
  { sampleState with isDragging := true, dragOffsetX := 10, dragOffsetY := 5 }

/-- A concrete pointer-move environment whose pointer sits far outside
the viewport. -/
def sampleDragEnv : DragEnv :=
  { clientX := -500, clientY := 4000, innerWidth := 1280, innerHeight := 800,
    offsetWidth := 900, offsetHeight := 320 }

section Lemmas

theorem liveCount_nil : liveCount [] = 0 := rfl

theorem liveCount_cons (b : Block) (rest : List Block) :
    liveCount (b :: rest) = (if b.isLive then 1 else 0) + liveCount rest := by
  by_cases hb : b.isLive
  · simp [liveCount, List.filter_cons, hb]
    omega
  · simp [liveCount, List.filter_cons, hb]

theorem liveCount_updateFirstLive (bs : List Block) (t o : String) :
    liveCount (updateFirstLive bs t o) = liveCount bs := by
  induction bs with
  | nil => rfl
  | cons b rest ih =>
    by_cases hb : b.isLive
    · simp [updateFirstLive, hb, liveCount_cons]
    · simp [updateFirstLive, hb, liveCount_cons, ih]

theorem liveCount_commitHistory (bs : List Block) :
    liveCount (commitHistory bs) = liveCount bs := by
  induction bs with
  | nil => rfl
  | cons b rest ih =>
    by_cases hb : b.isLive
    · simp [commitHistory, hb, liveCount_cons]
    · simp [commitHistory, hb, liveCount_cons, ih]

theorem liveCount_eq_zero_of_not_any (bs : List Block)
    (h : bs.any (fun b => b.isLive) = false) : liveCount bs = 0 := by
  induction bs with
  | nil => rfl
  | cons b rest ih =>
    simp only [List.any_cons, Bool.or_eq_false_iff] at h
    simp [liveCount_cons, h.1, ih h.2]

theorem liveCount_renderBlocks_le (bs : List Block) (t o : String) (c : Bool)
    (h : liveCount bs ≤ 1) : liveCount (renderBlocks bs t o c) ≤ 1 := by
  by_cases ha : bs.any (fun b => b.isLive)
  · cases c <;>
      simp [renderBlocks, ha, liveCount_commitHistory, liveCount_updateFirstLive, h]
  · have h0 := liveCount_eq_zero_of_not_any bs (by simpa using ha)
    cases c <;>
      simp [renderBlocks, ha, liveCount_commitHistory, liveCount_updateFirstLive,
        liveCount_cons, h0]

theorem historyOf_nil : historyOf [] = [] := rfl

theorem historyOf_cons (b : Block) (rest : List Block) :
    historyOf (b :: rest) =
      if b.isLive then historyOf rest else b :: historyOf rest := by
  by_cases hb : b.isLive <;> simp [historyOf, List.filter_cons, hb]

theorem historyOf_eq_self (bs : List Block)
    (h : bs.all (fun x => !x.isLive) = true) : historyOf bs = bs := by
  induction bs with
  | nil => rfl
  | cons b rest ih =>
    simp only [List.all_cons, Bool.and_eq_true, Bool.not_eq_true'] at h
    simp [historyOf_cons, h.1, ih h.2]

theorem renderBlocks_commit_wf (bs : List Block) (t o : String)
    (hwf : wfBlocks bs = true) :
    wfBlocks (renderBlocks bs t o true) = true ∧
    historyOf (renderBlocks bs t o true) =
      { isLive := false, transHtml := t, origHtml := o } :: historyOf bs := by
  cases bs with
  | nil =>
    constructor
    · rfl
    · rfl
  | cons b rest =>
    obtain ⟨bl, bt, bo⟩ := b
    simp only [wfBlocks, Bool.and_eq_true] at hwf
    obtain ⟨hb, hrest⟩ := hwf
    subst hb
    constructor
    · simp [renderBlocks, updateFirstLive, commitHistory, wfBlocks, hrest]
    · simp [renderBlocks, updateFirstLive, commitHistory, historyOf_cons,
        historyOf_eq_self rest hrest]

theorem renderBlocks_noCommit_wf (bs : List Block) (t o : String)
    (hwf : wfBlocks bs = true) :
    wfBlocks (renderBlocks bs t o false) = true ∧
    historyOf (renderBlocks bs t o false) = historyOf bs := by
  cases bs with
  | nil =>
    constructor
    · rfl
    · rfl
  | cons b rest =>
    obtain ⟨bl, bt, bo⟩ := b
    simp only [wfBlocks, Bool.and_eq_true] at hwf
    obtain ⟨hb, hrest⟩ := hwf
    subst hb
    constructor
    · simp [renderBlocks, updateFirstLive, wfBlocks, hrest]
    · simp [renderBlocks, updateFirstLive, historyOf_cons,
        historyOf_eq_self rest hrest]

theorem concatAll_map_congr (l : List Char) (f g : Char → String)
    (h : ∀ c ∈ l, f c = g c) : concatAll (l.map f) = concatAll (l.map g) := by
  induction l with
  | nil => rfl
  | cons c rest ih =>
    simp only [List.map_cons, concatAll]
    rw [h c (by simp), ih (fun x hx => h x (by simp [hx]))]

theorem updateFirstLive_hasLive (bs : List Block) (t o : String)
    (h : bs.any (fun b => b.isLive) = true) :
    (updateFirstLive bs t o).any
      (fun b => b.isLive && b.transHtml == t && b.origHtml == o) = true := by
  induction bs with
  | nil => simp at h
  | cons b rest ih =>
    by_cases hb : b.isLive
    · simp [updateFirstLive, hb, List.any_cons]
    · simp only [List.any_cons, hb, Bool.false_or] at h
      simp [updateFirstLive, hb, List.any_cons, ih h]

theorem sublist_commitHistory (bs : List Block) : bs.Sublist (commitHistory bs) := by
  induction bs with
  | nil => simp [commitHistory]
  | cons b rest ih =>
    by_cases hb : b.isLive
    · simp only [commitHistory, hb, if_true]
      exact List.Sublist.cons₂ b (List.sublist_cons_self _ _)
    · simp only [commitHistory, hb]
      exact List.Sublist.cons₂ b ih

theorem any_of_sublist {l la : List Block} {p : Block → Bool} (hs : l.Sublist la)
    (h : l.any p = true) : la.any p = true := by
  rw [List.any_eq_true] at h ⊢
  obtain ⟨x, hx, hp⟩ := h
  exact ⟨x, hs.subset hx, hp⟩

theorem renderBlocks_hasLive (bs : List Block) (t o : String) (c : Bool) :
    (renderBlocks bs t o c).any
      (fun b => b.isLive && b.transHtml == t && b.origHtml == o) = true := by
  by_cases ha : bs.any (fun b => b.isLive) = true
  · have h2 := updateFirstLive_hasLive bs t o ha
    cases c
    · simpa [renderBlocks, ha] using h2
    · have := any_of_sublist (sublist_commitHistory (updateFirstLive bs t o)) h2
      simpa [renderBlocks, ha] using this
  · have ha' : bs.any (fun b => b.isLive) = false := by
      simpa using ha
    have h1 : ({ isLive := true, transHtml := "", origHtml := "" } :: bs).any
        (fun b => b.isLive) = true := by simp
    have h2 := updateFirstLive_hasLive
      ({ isLive := true, transHtml := "", origHtml := "" } :: bs) t o h1
    cases c
    · simpa [renderBlocks, ha'] using h2
    · have := any_of_sublist
        (sublist_commitHistory
          (updateFirstLive ({ isLive := true, transHtml := "", origHtml := "" } :: bs) t o)) h2
      simpa [renderBlocks, ha'] using this

theorem jsOrEmpty_vstr (t : String) : jsOrEmpty (.vstr t) = .vstr t := by
  by_cases ht : t = "" <;> simp [jsOrEmpty, truthy, ht]

theorem jsToStrElem_vstr (t : String) : jsToStrElem (.vstr t) = t := rfl

theorem concatAll_filter_ne_empty (l : List String) :
    concatAll (l.filter (fun a => !(a == ""))) = concatAll l := by
  induction l with
  | nil => rfl
  | cons a rest ih =>
    by_cases ha : a = ""
    · simp [List.filter_cons, ha, concatAll, ih]
    · simp [List.filter_cons, ha, concatAll, ih]

theorem excOk_bind {α β : Type} (a : α) (f : α → Except String β) :
    (do
      let v ← Except.ok a
      f v) = f a := rfl

theorem excOk_map {α β : Type} (a : α) (f : α → β) :
    (f <$> (Except.ok a : Except String α)) = Except.ok (f a) := rfl

theorem mapPropOrEmpty_sentences (ts : List String) :
    mapPropOrEmpty "trans" (ts.map (fun t => JSVal.vobj [("trans", .vstr t)])) =
      .ok (ts.map (fun t => JSVal.vstr t)) := by
  induction ts with
  | nil => rfl
  | cons t rest ih =>
    have hg : getProp (JSVal.vobj [("trans", .vstr t)]) "trans" = .ok (.vstr t) := rfl
    simp [mapPropOrEmpty, hg, ih, jsOrEmpty_vstr, excOk_bind]

theorem mapPropOrEmpty_tuples (tuples : List (String × String)) :
    mapPropOrEmpty "0" (tuples.map (fun p => JSVal.varr [.vstr p.1, .vstr p.2])) =
      .ok (tuples.map (fun p => JSVal.vstr p.1)) := by
  induction tuples with
  | nil => rfl
  | cons p rest ih =>
    have hg : getProp (JSVal.varr [.vstr p.1, .vstr p.2]) "0" = .ok (.vstr p.1) := rfl
    simp [mapPropOrEmpty, hg, ih, jsOrEmpty_vstr, excOk_bind]

theorem map_jsToStrElem_vstr (ts : List String) :
    (ts.map (fun t => JSVal.vstr t)).map jsToStrElem = ts := by
  induction ts with
  | nil => rfl
  | cons t rest ih => simp [jsToStrElem_vstr, ih]

theorem map_comp_jsToStrElem_vstr (ts : List String) :
    List.map (jsToStrElem ∘ fun t => JSVal.vstr t) ts = ts := by
  induction ts with
  | nil => rfl
  | cons t rest ih => simp [Function.comp, jsToStrElem_vstr, ih]

theorem filter_truthy_tuples (tuples : List (String × String)) :
    ((tuples.map (fun p => JSVal.vstr p.1)).filter truthy).map jsToStrElem =
      (tuples.map Prod.fst).filter (fun a => !(a == "")) := by
  induction tuples with
  | nil => rfl
  | cons p rest ih =>
    by_cases ha : p.1 = "" <;>
      simp [List.filter_cons, truthy, ha, ih, jsToStrElem_vstr]

theorem extract_sentencesShape (ts : List String) :
    extractTranslatedText (sentencesShape ts) = .ok (concatAll ts) := by
  have hg : getProp (sentencesShape ts) "sentences" =
      .ok (.varr (ts.map (fun t => JSVal.vobj [("trans", .vstr t)]))) := rfl
  simp [extractTranslatedText, hg, truthy, isArray, mapPropOrEmpty_sentences,
    map_jsToStrElem_vstr, map_comp_jsToStrElem_vstr, excOk_bind, excOk_map]

theorem extract_arrayShape (tuples : List (String × String)) (rest : List JSVal) :
    extractTranslatedText (arrayShape tuples rest) =
      .ok (concatAll (tuples.map Prod.fst)) := by
  have hg : getProp (arrayShape tuples rest) "sentences" = .ok .vundefined := rfl
  have hg0 : getProp (arrayShape tuples rest) "0" =
      .ok (.varr (tuples.map (fun p => JSVal.varr [.vstr p.1, .vstr p.2]))) := rfl
  have hisa : isArray (arrayShape tuples rest) = true := rfl
  have hisa2 :
      isArray (JSVal.varr (tuples.map (fun p => JSVal.varr [.vstr p.1, .vstr p.2]))) =
        true := rfl
  have hlen : 0 < jsLength (arrayShape tuples rest) := by
    simp [arrayShape, jsLength]
  simp [extractTranslatedText, hg, hg0, truthy, hisa, hisa2, hlen,
    mapPropOrEmpty_tuples, filter_truthy_tuples, concatAll_filter_ne_empty,
    excOk_bind, excOk_map]

end Lemmas

section Claims

/-- C4: `stopRecognition` is idempotent — a second call reproduces
exactly the end state of the first — and that end state is inactive with
the overlay absent and the dedup key and pending timer cleared, so a
fresh start begins with no residual history. -/
theorem stopRecognition_idempotent (s : CtrlState) :
    (stopRecognition (stopRecognition s).1).1 = (stopRecognition s).1 ∧
    (stopRecognition s).1.isActive = false ∧
    (stopRecognition s).1.overlay = none ∧
    (stopRecognition s).1.lastLineKey = none ∧
    (stopRecognition s).1.clearTimer = none := by
  refine ⟨?_, rfl, rfl, rfl, rfl⟩
  rfl

/-- C2 counterexample: in a concrete state that is still active, the
`onend` handler does not remove the overlay, does not clear the config,
and leaves the state exactly as it was — refuting the claim that an
active session is fully cleaned up on `onend`. -/
theorem handleRecognitionEnd_active_cex :
    sampleState.isActive = true ∧
    (handleRecognitionEnd sampleState).1 = sampleState ∧
    (handleRecognitionEnd sampleState).1.overlay ≠ none ∧
    (handleRecognitionEnd sampleState).1.config ≠ none ∧
    (handleRecognitionEnd sampleState).2 = [] := by
  refine ⟨rfl, rfl, ?_, ?_, rfl⟩ <;> decide

/-- C2 (amended): `onend` performs the full cleanup (overlay removed,
config, dedup key and timer cleared, no upstream message) exactly when
the session is no longer active; while still active it leaves the state
untouched and emits nothing. -/
theorem handleRecognitionEnd_spec (s : CtrlState) :
    (s.isActive = true → handleRecognitionEnd s = (s, [])) ∧
    (s.isActive = false →
      handleRecognitionEnd s =
        ({ s with clearTimer := none, overlay := none, isActive := false,
                  config := none, lastLineKey := none }, [])) := by
  constructor
  · intro h
    simp [handleRecognitionEnd, h]
  · intro h
    simp [handleRecognitionEnd, h, cleanup]

/-- Witness for the amended C2 theorem at a concrete active state. -/
theorem handleRecognitionEnd_spec_witness :
    handleRecognitionEnd sampleState = (sampleState, []) :=
  (handleRecognitionEnd_spec sampleState).1 rfl

/-- C3 counterexample: in a concrete active state, the `not-allowed`
error sends the permission error message upstream but does not tear the
session down — `isActive` stays true and the overlay stays present,
refuting the claim that the session stops. -/
theorem handleRecognitionError_no_teardown_cex :
    sampleState.isActive = true ∧
    (handleRecognitionError sampleState "not-allowed").2 =
      [Effect.sendError "Microphone permission denied"] ∧
    (handleRecognitionError sampleState "not-allowed").1.isActive = true ∧
    (handleRecognitionError sampleState "not-allowed").1.overlay ≠ none := by
  refine ⟨rfl, ?_, rfl, ?_⟩ <;> decide

/-- C3 (amended): the error handler never modifies the controller state;
while active, `no-speech` and `aborted` schedule a ~1 s restart and send
no error; every other case sends the classified error message (for
`not-allowed` the permission message) and schedules no restart; teardown
is not performed by the handler. -/
theorem handleRecognitionError_policy (s : CtrlState) (err : String) :
    (handleRecognitionError s err).1 = s ∧
    (s.isActive = true → (err = "no-speech" ∨ err = "aborted") →
      handleRecognitionError s err = (s, [Effect.scheduleRestart 1000])) ∧
    (¬ (s.isActive = true ∧ (err = "no-speech" ∨ err = "aborted")) →
      handleRecognitionError s err = (s, [Effect.sendError (errorMessageFor err)])) ∧
    errorMessageFor "not-allowed" = "Microphone permission denied" := by
  refine ⟨?_, ?_, ?_, rfl⟩
  · by_cases h : (s.isActive && (err == "no-speech" || err == "aborted")) = true <;>
      simp [handleRecognitionError, h]
  · intro ha he
    have h : (s.isActive && (err == "no-speech" || err == "aborted")) = true := by
      rcases he with he | he <;> simp [ha, he]
    simp [handleRecognitionError, h]
  · intro hn
    have h : (s.isActive && (err == "no-speech" || err == "aborted")) = false := by
      by_cases ha : s.isActive = true
      · have h1 : err ≠ "no-speech" := fun hx => hn ⟨ha, Or.inl hx⟩
        have h2 : err ≠ "aborted" := fun hx => hn ⟨ha, Or.inr hx⟩
        simp [ha, h1, h2]
      · simp [Bool.not_eq_true] at ha
        simp [ha]
    simp [handleRecognitionError, h]

/-- Witness for the amended C3 theorem: a recoverable error in a concrete
active state schedules the delayed restart. -/
theorem handleRecognitionError_policy_witness :
    handleRecognitionError sampleState "no-speech" =
      (sampleState, [Effect.scheduleRestart 1000]) :=
  (handleRecognitionError_policy sampleState "no-speech").2.1 rfl (Or.inl rfl)

/-- C7 counterexample: in a concrete active state, a missing messaging
response makes `translateText` return null with the state unchanged — the
session does not end up stopped, refuting the claim. -/
theorem translateText_noResponse_cex :
    sampleState.isActive = true ∧
    translateText sampleState "Hello" "en" "es" SendOutcome.noResponse 0 =
      (sampleState, none, [Effect.translateRequest "Hello" "en" "es"]) ∧
    (translateText sampleState "Hello" "en" "es" SendOutcome.noResponse 0).1.isActive
      = true := ⟨rfl, rfl, rfl⟩

/-- C7 (amended): on a missing messaging response `translateText` returns
null and leaves the state untouched; the session is stopped only on the
thrown `Extension context invalidated` error, which also returns null. -/
theorem translateText_noResponse_null (s : CtrlState) (text sl tl : String)
    (now : Nat) :
    translateText s text sl tl SendOutcome.noResponse now =
      (s, none, [Effect.translateRequest text sl tl]) ∧
    (translateText s text sl tl
      (SendOutcome.throwEx "Extension context invalidated") now).1.isActive = false ∧
    (translateText s text sl tl
      (SendOutcome.throwEx "Extension context invalidated") now).2.1 = none := by
  have hc : containsSubstr "Extension context invalidated"
      "Extension context invalidated" = true := by decide
  refine ⟨rfl, ?_, ?_⟩ <;> simp [translateText, hc, stopRecognition, cleanup]

/-- C5: a non-final recognition result whose trimmed transcript is
shorter than 5 characters is dropped before translation — the state is
unchanged and no effect (in particular no translation request) is
issued. -/
theorem interim_short_dropped (s : CtrlState) (results : List ResultSlot)
    (slot : ResultSlot) (outcome : SendOutcome) (now : Nat)
    (hlast : results.getLast? = some slot) (hfin : slot.isFinal = false)
    (hlen : (jsTrim slot.transcript).length < 5) :
    handleRecognitionResult s results outcome now = (s, []) := by
  have hd : decide ((jsTrim slot.transcript).length < 5) = true := decide_eq_true hlen
  unfold handleRecognitionResult
  cases hc : s.config with
  | none => rfl
  | some cfg =>
    by_cases ha : s.isActive = true
    · simp [ha, hlast, hfin, hd]
    · simp [Bool.not_eq_true] at ha
      simp [ha]

/-- Witness for the C5 theorem at a concrete state and result batch. -/
theorem interim_short_dropped_witness :
    shortResults.getLast? = some { transcript := "hi", isFinal := false } ∧
    ({ transcript := "hi", isFinal := false } : ResultSlot).isFinal = false ∧
    (jsTrim "hi").length < 5 ∧
    handleRecognitionResult sampleState shortResults SendOutcome.noResponse 0 =
      (sampleState, []) :=
  ⟨rfl, rfl, by decide,
    interim_short_dropped sampleState shortResults
      { transcript := "hi", isFinal := false } SendOutcome.noResponse 0 rfl rfl
      (by decide)⟩

/-- C8: whenever a drag is in progress, the overlay exists and the panel
fits the viewport, the position applied by a pointer-move is clamped into
the rectangle `[0, innerWidth - offsetWidth] × [0, innerHeight -
offsetHeight]`, for arbitrary pointer coordinates. -/
theorem dragMove_clamped (s : CtrlState) (env : DragEnv)
    (hdrag : s.isDragging = true) (hov : s.overlay.isSome = true)
    (hw : env.offsetWidth ≤ env.innerWidth)
    (hh : env.offsetHeight ≤ env.innerHeight) :
    inViewport (handleDragMove s env) env = true := by
  obtain ⟨ov, hove⟩ := Option.isSome_iff_exists.mp hov
  have hcond : (!s.isDragging || s.overlay.isNone) = false := by
    simp [hdrag, hove]
  simp only [handleDragMove, hcond, Bool.false_eq_true, if_false, inViewport,
    Bool.and_eq_true, decide_eq_true_eq]
  refine ⟨⟨le_max_left 0 _, ?_⟩, le_max_left 0 _, ?_⟩
  · exact max_le (by omega) (min_le_right _ _)
  · exact max_le (by omega) (min_le_right _ _)

/-- Witness for the C8 theorem at a concrete state and environment. -/
theorem dragMove_clamped_witness :
    dragState.isDragging = true ∧ dragState.overlay.isSome = true ∧
    sampleDragEnv.offsetWidth ≤ sampleDragEnv.innerWidth ∧
    sampleDragEnv.offsetHeight ≤ sampleDragEnv.innerHeight ∧
    inViewport (handleDragMove dragState sampleDragEnv) sampleDragEnv = true :=
  ⟨rfl, rfl, by decide, by decide,
    dragMove_clamped dragState sampleDragEnv rfl rfl (by decide) (by decide)⟩

/-- C1: on a finalized display call over a well-formed overlay, a new
history entry — the clone of the freshly updated live block — is added
exactly when the dedup key of the (translated, original) pair differs
from the stored `lastLineKey`; the previous history entries are preserved
verbatim behind it, `lastLineKey` holds the committed pair's key
afterwards, and well-formedness is preserved — so consecutive identical
finalized pairs never produce more than one history entry. -/
theorem display_final_dedup (s : CtrlState) (ov : Overlay) (t o : String)
    (hov : s.overlay = some ov) (hwf : wfOverlay ov = true) :
    overlayWf (displayBothLanguages s t o true) = true ∧
    (displayBothLanguages s t o true).lastLineKey = some (dedupKey t o) ∧
    overlayHistory (displayBothLanguages s t o true) =
      (if s.lastLineKey = some (dedupKey t o) then historyOf ov.blocks
       else histEntry t o :: historyOf ov.blocks) := by
  have hwf2 : (ov.hasContainer = true ∨ ov.blocks = []) ∧ wfBlocks ov.blocks = true := by
    simpa [wfOverlay, Bool.and_eq_true, Bool.or_eq_true, List.isEmpty_iff] using hwf
  obtain ⟨hc, hb⟩ := hwf2
  by_cases hk : s.lastLineKey = some (dedupKey t o)
  · have hkd : decide (s.lastLineKey = some (dedupKey t o)) = true := decide_eq_true hk
    rcases hc with hc | hc
    · have hr := renderBlocks_noCommit_wf ov.blocks (escapeHtml t) (escapeHtml o) hb
      simp [displayBothLanguages, overlayWf, overlayHistory, wfOverlay, hov, hc,
        hk, hkd, hr.1, hr.2]
    · have hr := renderBlocks_noCommit_wf [] (escapeHtml t) (escapeHtml o) rfl
      by_cases hcc : ov.hasContainer = true <;>
        simp [displayBothLanguages, overlayWf, overlayHistory, wfOverlay, hov, hc,
          hcc, hk, hkd, hr.1, hr.2, historyOf_nil]
  · have hkd : decide (s.lastLineKey = some (dedupKey t o)) = false := decide_eq_false hk
    rcases hc with hc | hc
    · have hr := renderBlocks_commit_wf ov.blocks (escapeHtml t) (escapeHtml o) hb
      simp [displayBothLanguages, overlayWf, overlayHistory, wfOverlay, hov, hc,
        hk, hkd, hr.1, hr.2, histEntry]
    · have hr := renderBlocks_commit_wf [] (escapeHtml t) (escapeHtml o) rfl
      by_cases hcc : ov.hasContainer = true <;>
        simp [displayBothLanguages, overlayWf, overlayHistory, wfOverlay, hov, hc,
          hcc, hk, hkd, hr.1, hr.2, histEntry, historyOf_nil]

/-- Witness for the C1 theorem at a concrete state and pair. -/
theorem display_final_dedup_witness :
    sampleState.overlay = some sampleOverlay ∧
    wfOverlay sampleOverlay = true ∧
    (overlayWf (displayBothLanguages sampleState "Hola" "Hello" true) = true ∧
     (displayBothLanguages sampleState "Hola" "Hello" true).lastLineKey =
       some (dedupKey "Hola" "Hello") ∧
     overlayHistory (displayBothLanguages sampleState "Hola" "Hello" true) =
       (if sampleState.lastLineKey = some (dedupKey "Hola" "Hello")
        then historyOf sampleOverlay.blocks
        else histEntry "Hola" "Hello" :: historyOf sampleOverlay.blocks)) :=
  ⟨rfl, by decide,
    display_final_dedup sampleState sampleOverlay "Hola" "Hello" rfl (by decide)⟩

/-- C9: starting from a state whose overlay has at most one live block,
any sequence of display calls — each of which reuses the live block or
creates one only when none exists — leaves at most one live block in the
panel. -/
theorem display_live_block_unique (calls : List (String × String × Bool))
    (s : CtrlState) (h : overlayLiveOk s = true) :
    overlayLiveOk (displaySeq s calls) = true := by
  induction calls generalizing s with
  | nil => simpa [displaySeq] using h
  | cons c rest ih =>
    have hstep : overlayLiveOk (displayBothLanguages s c.1 c.2.1 c.2.2) = true := by
      cases hso : s.overlay with
      | none => simp [displayBothLanguages, overlayLiveOk, hso]
      | some ov0 =>
        have hl : liveCount ov0.blocks ≤ 1 := by
          simpa [overlayLiveOk, hso] using h
        have hl0 : liveCount ([] : List Block) ≤ 1 := by simp [liveCount]
        by_cases hcc : ov0.hasContainer = true <;>
          simp [displayBothLanguages, overlayLiveOk, hso, hcc,
            liveCount_renderBlocks_le _ _ _ _ hl,
            liveCount_renderBlocks_le _ _ _ _ hl0]
    have hrest := ih (displayBothLanguages s c.1 c.2.1 c.2.2) hstep
    simpa [displaySeq] using hrest

/-- Witness for the C9 theorem: a concrete three-call display sequence. -/
theorem display_live_block_unique_witness :
    overlayLiveOk sampleState = true ∧
    overlayLiveOk (displaySeq sampleState
      [("a", "b", true), ("a", "b", true), ("c", "d", false)]) = true :=
  ⟨by decide,
    display_live_block_unique [("a", "b", true), ("a", "b", true), ("c", "d", false)]
      sampleState (by decide)⟩

/-- C10 counterexample: on the one-character string U+00A0 the DOM-based
`escapeHtml` yields the entity `&nbsp;`, while the claimed three-entity
replacement leaves the character unchanged — so the claimed
characterisation does not hold for every input string. -/
theorem escapeHtml_nbsp_cex :
    escapeHtml (String.singleton (Char.ofNat 160)) = "&nbsp;" ∧
    specEscapeHtml (String.singleton (Char.ofNat 160)) =
      String.singleton (Char.ofNat 160) ∧
    escapeHtml (String.singleton (Char.ofNat 160)) ≠
      specEscapeHtml (String.singleton (Char.ofNat 160)) := by
  refine ⟨by decide, by decide, by decide⟩

/-- C10 (amended): on every string without a U+00A0 character,
`escapeHtml` is exactly the claimed replacement of `&`, `<` and `>` by
their entities; and every display call routes both the translated and the
original text through `escapeHtml` into the live block it renders. -/
theorem escapeHtml_matches_spec (s : String)
    (hs : s.toList.all (fun c => !(c == Char.ofNat 160)) = true)
    (st : CtrlState) (t o : String) (f : Bool)
    (hov : st.overlay.isSome = true) :
    escapeHtml s = specEscapeHtml s ∧
    overlayHasLiveContent (displayBothLanguages st t o f)
      (escapeHtml t) (escapeHtml o) = true := by
  constructor
  · unfold escapeHtml specEscapeHtml
    apply concatAll_map_congr
    intro c hc
    have h160 : ¬ (c = Char.ofNat 160) := by
      have := List.all_eq_true.mp hs c hc
      simpa using this
    simp [h160]
  · obtain ⟨ov, hove⟩ := Option.isSome_iff_exists.mp hov
    by_cases hcc : ov.hasContainer = true <;>
      simp [displayBothLanguages, overlayHasLiveContent, hove, hcc,
        renderBlocks_hasLive]

/-- Witness for the amended C10 theorem at a concrete markup-bearing
string and a concrete display call. -/
theorem escapeHtml_matches_spec_witness :
    ("a<b&c>d").toList.all (fun c => !(c == Char.ofNat 160)) = true ∧
    sampleState.overlay.isSome = true ∧
    (escapeHtml "a<b&c>d" = specEscapeHtml "a<b&c>d" ∧
     overlayHasLiveContent (displayBothLanguages sampleState "Hola" "He>llo" false)
       (escapeHtml "Hola") (escapeHtml "He>llo") = true) :=
  ⟨by decide, rfl,
    escapeHtml_matches_spec "a<b&c>d" (by decide) sampleState "Hola" "He>llo" false rfl⟩

/-- C6: `translateText` parses the two historical response shapes — an
object with a `sentences` array (concatenating the `trans` fields in
order) and a root-level array whose first element is a tuple array
(concatenating the first tuple components) — and for any response from
which the parser extracts no non-empty text it returns null instead of
raising an error. -/
theorem translateText_response_shapes (s : CtrlState) (text sl tl : String)
    (now : Nat) (ts : List String) (tuples : List (String × String))
    (rest : List JSVal) (data : JSVal)
    (hempty : extractsNothing data = true) :
    translateText s text sl tl (SendOutcome.resp true none (sentencesShape ts)) now =
      (s, (if concatAll ts = "" then none
           else some { originalText := text, translatedText := concatAll ts,
                       sourceLang := sl, targetLang := tl, timestamp := now }),
       [Effect.translateRequest text sl tl]) ∧
    translateText s text sl tl
        (SendOutcome.resp true none (arrayShape tuples rest)) now =
      (s, (if concatAll (tuples.map Prod.fst) = "" then none
           else some { originalText := text,
                       translatedText := concatAll (tuples.map Prod.fst),
                       sourceLang := sl, targetLang := tl, timestamp := now }),
       [Effect.translateRequest text sl tl]) ∧
    (translateText s text sl tl (SendOutcome.resp true none data) now).2.1 = none := by
  refine ⟨?_, ?_, ?_⟩
  · simp only [translateText, extract_sentencesShape, Bool.not_true,
      Bool.false_eq_true, if_false]
    by_cases h : concatAll ts = "" <;> simp [h]
  · simp only [translateText, extract_arrayShape, Bool.not_true,
      Bool.false_eq_true, if_false]
    by_cases h : concatAll (tuples.map Prod.fst) = "" <;> simp [h]
  · unfold extractsNothing at hempty
    cases hx : extractTranslatedText data with
    | ok t0 =>
      rw [hx] at hempty
      have ht0 : t0 = "" := by simpa using hempty
      simp [translateText, hx, ht0]
    | error e =>
      by_cases hce : containsSubstr e "Extension context invalidated" = true <;>
        simp [translateText, hx, hce]

/-- Witness for the C6 theorem at concrete responses of both shapes and a
concrete unparseable response. -/
theorem translateText_response_shapes_witness :
    extractsNothing (JSVal.vobj []) = true ∧
    (translateText sampleState "Hello" "en" "es"
        (SendOutcome.resp true none (sentencesShape ["Hola", " mundo"])) 0 =
      (sampleState,
       (if concatAll ["Hola", " mundo"] = "" then none
        else some { originalText := "Hello",
                    translatedText := concatAll ["Hola", " mundo"],
                    sourceLang := "en", targetLang := "es", timestamp := 0 }),
       [Effect.translateRequest "Hello" "en" "es"]) ∧
     translateText sampleState "Hello" "en" "es"
        (SendOutcome.resp true none (arrayShape [("Bonjour", "Hello")] [JSVal.vnull])) 0 =
      (sampleState,
       (if concatAll ([("Bonjour", "Hello")].map Prod.fst) = "" then none
        else some { originalText := "Hello",
                    translatedText := concatAll ([("Bonjour", "Hello")].map Prod.fst),
                    sourceLang := "en", targetLang := "es", timestamp := 0 }),
       [Effect.translateRequest "Hello" "en" "es"]) ∧
     (translateText sampleState "Hello" "en" "es"
        (SendOutcome.resp true none (JSVal.vobj [])) 0).2.1 = none) :=
  ⟨rfl,
    translateText_response_shapes sampleState "Hello" "en" "es" 0
      ["Hola", " mundo"] [("Bonjour", "Hello")] [JSVal.vnull] (JSVal.vobj []) rfl⟩

end Claims

end AutoSub
